import Mathlib

/-!
Verification of the PyLabRobot spatial-layout and liquid-geometry core.

The definitions below are shallow embeddings of the Python source under
`pylabrobot/resources/` (`height_functions.py`, `carrier.py`,
`hamilton/hamilton_decks.py`).  Python floats are modelled as rationals;
the irrational constants `math.pi` and the cube root `(** (1/3))` are
abstracted as explicit parameters (`pi : ℚ`, `cbrt : ℚ → ℚ`), so every
definition stays computable and every property is proved for all values
of those parameters (with `0 < pi` where the source relies on positivity
of `math.pi`).  A Python `raise` is modelled by `Option.none` / an
`Except.error` value.
-/

/-! ## Geometry solver: `pylabrobot/resources/height_functions.py` -/

/-- Volume of a spherical cap of height `h` in a sphere of radius `r`:
`(1/3) * math.pi * h**2 * (3*r - h)` (`height_functions.py`, line 39). -/
def capVolume (pi r h : ℚ) : ℚ := (1/3) * pi * h^2 * (3*r - h)

/-- Absolute tolerance of the bisection loop (`tolerance = 1e-6`). -/
def capTol : ℚ := 1/1000000

/-- One bisection step of `_height_of_volume_in_spherical_cap`:
`mid = (low+high)/2; if volume_of_spherical_cap(mid) < liquid_volume:
low = mid else: high = mid`. -/
def capStep (pi r v : ℚ) (p : ℚ × ℚ) : ℚ × ℚ :=
  let mid := (p.1 + p.2) / 2
  if capVolume pi r mid < v then (mid, p.2) else (p.1, mid)

/-- The bisection loop `while high - low > tolerance` after `n` iterations,
started from the bracket `low, high = 0.0, r`.  Once the bracket width is
at most `capTol` the state no longer changes, so the value of the Python
loop is `capIter` at any sufficiently large iteration count. -/
def capIter (pi r v : ℚ) : ℕ → ℚ × ℚ
  | 0 => (0, r)
  | n+1 =>
    let p := capIter pi r v n
    if capTol < p.2 - p.1 then capStep pi r v p else p

/-- An iteration count after which the bisection bracket is certainly at
most `capTol` wide: the bracket halves each step, and `r / 2 ^ capFuel r
≤ capTol` (proved in `capFuel_spec` below). -/
def capFuel (r : ℚ) : ℕ := (⌈(1000000 : ℚ) * r⌉).toNat

/-- Final bracket of the bisection loop of
`_height_of_volume_in_spherical_cap`. -/
def heightCapLoop (pi r v : ℚ) : ℚ × ℚ := capIter pi r v (capFuel r)

/-- `_height_of_volume_in_spherical_cap` (`height_functions.py`, lines
7-58): raises (here `none`) when `liquid_volume > max_volume` where
`max_volume = volume_of_spherical_cap(r)`; otherwise bisects and returns
`(low + high) / 2`. -/
def heightOfVolumeInSphericalCap (pi r v : ℚ) : Option ℚ :=
  if capVolume pi r r < v then none
  else
    let p := heightCapLoop pi r v
    some ((p.1 + p.2) / 2)

/-- `calculate_liquid_height_in_container_2segments_square_vbottom`
(`height_functions.py`, lines 61-104).  The cube root
`(liquid_volume / full_pyramid_volume) ** (1/3)` is the abstracted
parameter `cbrt` applied to the volume fraction. -/
def calcH2SegSquareVBottom (cbrt : ℚ → ℚ) (x y hPyramid hCube v : ℚ) : Option ℚ :=
  let baseArea := x * y
  let fullPyramidVolume := (1/3) * baseArea * hPyramid
  if v ≤ fullPyramidVolume then
    some (cbrt (v / fullPyramidVolume) * hPyramid)
  else
    let cubeLiquidHeight := (v - fullPyramidVolume) / baseArea
    let liquidHeight := hPyramid + cubeLiquidHeight
    if hPyramid + hCube < liquidHeight then none else some liquidHeight

/-- `calculate_liquid_height_in_container_2segments_round_vbottom`
(`height_functions.py`, lines 145-190): upfront overflow check against
`full_cone_volume + base_area * h_cylinder`, then cone branch (cube root,
abstracted as `cbrt`) or cylinder branch. -/
def calcH2SegRoundVBottom (pi : ℚ) (cbrt : ℚ → ℚ) (d hCone hCylinder v : ℚ) : Option ℚ :=
  let radius := d / 2
  let baseArea := pi * radius^2
  let fullConeVolume := (1/3) * baseArea * hCone
  let totalContainerVolume := fullConeVolume + baseArea * hCylinder
  if totalContainerVolume < v then none
  else if v ≤ fullConeVolume then
    some (cbrt (v / fullConeVolume) * hCone)
  else
    some (hCone + (v - fullConeVolume) / baseArea)

/-- `calculate_liquid_height_in_container_2segments_round_ubottom`
(`height_functions.py`, lines 193-234): upfront overflow check against
`hemisphere_volume + base_area * h_cylinder`, then the spherical-cap
solver or the cylinder branch. -/
def calcH2SegRoundUBottom (pi d hCylinder v : ℚ) : Option ℚ :=
  let radius := d / 2
  let hemisphereVolume := (2/3) * pi * radius^3
  let baseArea := pi * radius^2
  let totalContainerVolume := hemisphereVolume + baseArea * hCylinder
  if totalContainerVolume < v then none
  else if v ≤ hemisphereVolume then
    heightOfVolumeInSphericalCap pi radius v
  else
    some (radius + (v - hemisphereVolume) / baseArea)

/-- `calculate_liquid_height_container_1segment_round_fbottom`
(`height_functions.py`, lines 237-261): plain cylinder. -/
def calcH1SegRoundFBottom (pi d hCylinder v : ℚ) : Option ℚ :=
  let r := d / 2
  let maxVolume := pi * r^2 * hCylinder
  if maxVolume < v then none
  else some (v / (pi * r^2))

/-- `compute_volume_from_height_conical_frustum`
(`height_functions.py`, lines 288-291). -/
def computeVolumeFromHeightConicalFrustum (pi liquidHeight bottomRadius topRadius : ℚ) : ℚ :=
  (1/3) * pi * liquidHeight * (bottomRadius^2 + bottomRadius * topRadius + topRadius^2)

/-- `compute_height_from_volume_conical_frustum`
(`height_functions.py`, lines 294-297). -/
def computeHeightFromVolumeConicalFrustum (pi liquidVolume bottomRadius topRadius : ℚ) : ℚ :=
  (3 * liquidVolume) / (pi * (bottomRadius^2 + bottomRadius * topRadius + topRadius^2))

/-! ## Coordinates and resource nodes -/

/-- Modelled from the spec: `Coordinate` (section 3) is an `(x, y, z)`
triple in millimeters with vector addition, negation and a zero value
(`coordinate.py` is not under `src/`). -/
structure Coordinate where
  x : ℚ
  y : ℚ
  z : ℚ
deriving DecidableEq, Repr

instance : Add Coordinate := ⟨fun a b => ⟨a.x + b.x, a.y + b.y, a.z + b.z⟩⟩

instance : Neg Coordinate := ⟨fun a => ⟨-a.x, -a.y, -a.z⟩⟩

/-- Modelled from the spec: the canonical zero coordinate. -/
def Coordinate.zero : Coordinate := ⟨0, 0, 0⟩

/-- Kind of a resource node, standing in for the Python class of the
object (`Plate`, `PlateAdapter`, `ResourceStack` with its stacking
direction, or any other resource). -/
inductive RKind where
  | plate
  | plateAdapter
  | stack (direction : String)
  | other
deriving DecidableEq, Repr

/-- Modelled from the spec: a Resource Node (section 3) with its class
kind, name, category tag, optional relative location and ordered list of
children (`resource.py` is not under `src/`). -/
inductive RNode where
  | mk (kind : RKind) (name : String) (category : String)
       (loc : Option Coordinate) (children : List RNode)

/-- Class kind of a resource node. -/
def RNode.kind : RNode → RKind
  | .mk k _ _ _ _ => k

/-- Name of a resource node. -/
def RNode.name : RNode → String
  | .mk _ n _ _ _ => n

/-- Category tag of a resource node. -/
def RNode.category : RNode → String
  | .mk _ _ c _ _ => c

/-- Relative location of a resource node (`None` = not yet placed). -/
def RNode.loc : RNode → Option Coordinate
  | .mk _ _ _ l _ => l

/-- Children of a resource node. -/
def RNode.children : RNode → List RNode
  | .mk _ _ _ _ cs => cs

mutual

/-- Modelled from the spec: `Resource.get_all_children` returns every
descendant of a node (`resource.py` is not under `src/`). -/
def RNode.getAllChildren : RNode → List RNode
  | .mk _ _ _ _ cs => allChildrenOfList cs

/-- Descendant collection over a list of sibling nodes. -/
def allChildrenOfList : List RNode → List RNode
  | [] => []
  | c :: rest => c :: (c.getAllChildren ++ allChildrenOfList rest)

end

/-- Python's `round(q, 2)`: round to 2 decimal places. -/
def round2 (q : ℚ) : ℚ := (round (q * 100) : ℤ) / 100

/-! ## PlateHolder sinking logic: `pylabrobot/resources/carrier.py` -/

/-- The distinct values of the set comprehension in
`PlateHolder._get_sinking_depth` (`carrier.py`, lines 194-198):
`{round(well.location.z, 2) for well in plate.get_all_children() if
well.category == "well" and well.location is not None}`, as a
duplicate-free list. -/
def wellDzValues (plate : RNode) : List ℚ :=
  ((plate.getAllChildren.filterMap fun w =>
      if w.category = "well" then w.loc.map (fun l => l.z) else none).map round2).dedup

/-- `get_plate_sinking_depth` inside `PlateHolder._get_sinking_depth`
(`carrier.py`, lines 192-204): asserts that the set of rounded well
z-locations has exactly one element (`none` models the failed assert),
then returns `min(abs(pedestal_size_z), well_dz)`. -/
def getPlateSinkingDepth (pedestalSizeZ : ℚ) (plate : RNode) : Option ℚ :=
  match wellDzValues plate with
  | [wellDz] => some (min |pedestalSizeZ| wellDz)
  | _ => none

/-- `PlateHolder._get_sinking_depth` (`carrier.py`, lines 191-217):
computes the z sinking depth for a `Plate`, or for the first child of a
nonempty `ResourceStack` when that child is a `Plate`; any other input
sinks by `0.0`.  Returns `-Coordinate(z=z_sinking_depth)`; the callback
registration on the stack branch is a side effect not modelled here. -/
def getSinkingDepth (pedestalSizeZ : ℚ) (resource : RNode) : Option Coordinate :=
  match resource.kind with
  | .plate => (getPlateSinkingDepth pedestalSizeZ resource).map fun d => -(⟨0, 0, d⟩ : Coordinate)
  | .stack _ =>
    match resource.children with
    | [] => some (-(⟨0, 0, 0⟩ : Coordinate))
    | firstChild :: _ =>
      match firstChild.kind with
      | .plate => (getPlateSinkingDepth pedestalSizeZ firstChild).map
          fun d => -(⟨0, 0, d⟩ : Coordinate)
      | _ => some (-(⟨0, 0, 0⟩ : Coordinate))
  | _ => some (-(⟨0, 0, 0⟩ : Coordinate))

/-- Modelled from the spec: the base placement rule of
`ResourceHolder.get_default_child_location` puts the occupant flush at
the holder origin (section 4.3; `resource_holder.py` is not under
`src/`). -/
def baseDefaultChildLocation (_resource : RNode) : Coordinate := Coordinate.zero

/-- `PlateHolder.get_default_child_location` (`carrier.py`, lines
219-220): the base placement location plus the sinking depth; `none`
when the sinking-depth assertion fails. -/
def plateHolderDefaultChildLocation (pedestalSizeZ : ℚ) (resource : RNode) : Option Coordinate :=
  (getSinkingDepth pedestalSizeZ resource).map
    fun d => baseDefaultChildLocation resource + d

/-! ## Hamilton deck placement:
`pylabrobot/resources/hamilton/hamilton_decks.py` -/

/-- A resource as seen by the deck placement check: name and x/y
footprint extents. -/
structure DeckRes where
  name : String
  size_x : ℚ
  size_y : ℚ
deriving DecidableEq, Repr

/-- A direct child of the deck: the resource together with its relative
location (`none` = unknown location). -/
structure DeckChild where
  res : DeckRes
  loc : Option Coordinate
deriving DecidableEq, Repr

/-- State of a Hamilton deck relevant to `assign_child_resource`: the
rail count and the ordered direct children. -/
structure HDeck where
  num_rails : ℤ
  children : List DeckChild
deriving DecidableEq, Repr

/-- Error outcomes of `HamiltonDeck.assign_child_resource`
(`hamilton_decks.py`, lines 65-148), in the order the source raises
them. `crashUnlocatedChild` models the `AttributeError` the collision
loop hits when an existing child has no location (the source reads
`og_resource.location.x` through a bare `cast`). -/
inductive DeckAssignError where
  | railsOutOfRange
  | nameExists
  | doesNotFit
  | locationOccupied (siblingName : String)
  | crashUnlocatedChild
deriving DecidableEq, Repr

/-- `HamiltonSTARDeck.rails_to_location` (`hamilton_decks.py`, lines
400-402): `x = 100.0 + (rails - 1) * 22.5`, y = 63, z = 100. -/
def railsToLocation (rails : ℤ) : Coordinate :=
  ⟨100 + (rails - 1) * (45/2), 63, 100⟩

/-- The overlap test of the collision loop (`hamilton_decks.py`, lines
136-144) between an existing child at `(ogX, ogY)` with extents
`(ogW, ogH)` and the candidate at `(cand.x, cand.y)` with extents
`(w, h)`:
`any([og_x <= x < og_x+og_w, og_x < x+w < og_x+og_w]) and
 any([og_y <= y < og_y+og_h, og_y < y+h < og_y+og_h])`. -/
def codeOverlap (ogX ogY ogW ogH : ℚ) (cand : Coordinate) (w h : ℚ) : Prop :=
  ((ogX ≤ cand.x ∧ cand.x < ogX + ogW) ∨ (ogX < cand.x + w ∧ cand.x + w < ogX + ogW)) ∧
  ((ogY ≤ cand.y ∧ cand.y < ogY + ogH) ∨ (ogY < cand.y + h ∧ cand.y + h < ogY + ogH))

instance (ogX ogY ogW ogH : ℚ) (cand : Coordinate) (w h : ℚ) :
    Decidable (codeOverlap ogX ogY ogW ogH cand w h) := by
  unfold codeOverlap; infer_instance

/-- The collision loop of `HamiltonDeck.assign_child_resource`
(`hamilton_decks.py`, lines 130-146): walk the existing children in
order; raise at the first whose footprint trips the overlap test. -/
def collisionScan (cs : List DeckChild) (cand : Coordinate) (w h : ℚ) :
    Except DeckAssignError Unit :=
  match cs with
  | [] => .ok ()
  | og :: rest =>
    match og.loc with
    | none => .error .crashUnlocatedChild
    | some ogLoc =>
      if codeOverlap ogLoc.x ogLoc.y og.res.size_x og.res.size_y cand w h then
        .error (.locationOccupied og.res.name)
      else collisionScan rest cand w h

/-- The rails-range check `rails is not None and not 1 <= rails <=
self.num_rails` (`hamilton_decks.py`, line 104). -/
def railsRangeViolated (numRails : ℤ) : Option ℤ → Bool
  | some r => decide (¬(1 ≤ r ∧ r ≤ numRails))
  | none => false

/-- `HamiltonDeck.assign_child_resource` (`hamilton_decks.py`, lines
65-148): rails-range check, duplicate-name check (with optional
`replace`), resolution of the candidate location from `rails` or
`location`, the rails width check, the collision loop, and finally the
base assignment (modelled from the spec, section 4.2, as appending the
child; `deck.py` and `resource.py` are not under `src/`). -/
def hamiltonAssign (deck : HDeck) (res : DeckRes) (location : Option Coordinate)
    (rails : Option ℤ) (replace : Bool) : Except DeckAssignError HDeck :=
  if railsRangeViolated deck.num_rails rails then
    .error .railsOutOfRange
  else if deck.children.any fun c => c.res.name = res.name then
    if replace then
      hamiltonAssignLocated
        { deck with children := deck.children.filter fun c => c.res.name ≠ res.name }
        res location rails
    else .error .nameExists
  else
    hamiltonAssignLocated deck res location rails
where
  /-- The part of `assign_child_resource` after the name check: location
  resolution, width check, collision loop, and the final append. -/
  hamiltonAssignLocated (deck : HDeck) (res : DeckRes) (location : Option Coordinate)
      (rails : Option ℤ) : Except DeckAssignError HDeck :=
    let resourceLocation : Option Coordinate :=
      match rails with
      | some r => some (railsToLocation r)
      | none => location
    match resourceLocation with
    | none => .ok { deck with children := deck.children ++ [⟨res, none⟩] }
    | some rl =>
      if (railsToLocation (deck.num_rails + 1)).x < rl.x + res.size_x ∧ rails.isSome then
        .error .doesNotFit
      else
        match collisionScan deck.children rl res.size_x res.size_y with
        | .error e => .error e
        | .ok _ => .ok { deck with children := deck.children ++ [⟨res, some rl⟩] }

/-- Strict overlap of two axis-aligned rectangles, stated from the
spec's words (section 4.4, step 3): on each axis independently the two
half-open spans strictly overlap; rectangles that merely touch edges do
not count. -/
def rectsStrictlyOverlap (ax ay aw ah bx bY bw bh : ℚ) : Prop :=
  bx < ax + aw ∧ ax < bx + bw ∧ bY < ay + ah ∧ ay < bY + bh

instance (ax ay aw ah bx bY bw bh : ℚ) :
    Decidable (rectsStrictlyOverlap ax ay aw ah bx bY bw bh) := by
  unfold rectsStrictlyOverlap; infer_instance

/-! ## Carrier: `pylabrobot/resources/carrier.py` -/

/-- A carrier site (`ResourceHolder`): its name, its carrier-relative
location, and its occupant, identified by name (`none` = empty).  The
holder internals live in `resource_holder.py`, which is not under
`src/`; per the spec (section 3) a holder carries at most one occupant. -/
structure CSite where
  name : String
  loc : Option Coordinate
  occupant : Option String
deriving DecidableEq, Repr

/-- State of a `Carrier`: its name and its sites.  The source keeps
`self.sites : Dict[int, S]` whose keys are assigned as `idx =
len(self.sites)` in insertion order, so the dictionary is exactly a
list indexed by position. -/
structure MCarrier where
  name : String
  sites : List CSite
deriving DecidableEq, Repr

/-- Error outcomes of the carrier operations (`carrier.py`). -/
inductive CarrierError where
  | siteHasNoLocation
  | nameCollision
  | indexOutOfRange
  | spotOccupied
  | notAssignedToThisCarrier
deriving DecidableEq, Repr

/-- `Carrier.capacity` (`carrier.py`, lines 51-54): `len(self.sites)`. -/
def MCarrier.capacity (c : MCarrier) : ℕ := c.sites.length

/-- `Carrier.assign_child_resource` (`carrier.py`, lines 56-69): records
the holder under the next integer index (modelled by appending) and
delegates to the base assignment, which per the spec (section 4.2) fails
on a duplicate child name (`resource.py` is not under `src/`).  The
`isinstance(resource, ResourceHolder)` check is enforced by typing. -/
def MCarrier.assignChildResource (c : MCarrier) (site : CSite) (_location : Coordinate) :
    Except CarrierError MCarrier :=
  if c.sites.any fun s => s.name = site.name then .error .nameCollision
  else .ok { c with sites := c.sites ++ [site] }

/-- The site-construction loop of `Carrier.__init__` (`carrier.py`,
lines 42-49): each input site is renamed
`f"carrier-{self.name}-spot-{spot}"`, must already have a location, and
is assigned via `assign_child_resource`. -/
def carrierInitLoop (cname : String) (c : MCarrier) :
    List (ℤ × CSite) → Except CarrierError MCarrier
  | [] => .ok c
  | (spot, site) :: rest =>
    let renamed := { site with name := "carrier-" ++ cname ++ "-spot-" ++ toString spot }
    match renamed.loc with
    | none => .error .siteHasNoLocation
    | some l =>
      match c.assignChildResource renamed l with
      | .error e => .error e
      | .ok c' => carrierInitLoop cname c' rest

/-- `Carrier.__init__` (`carrier.py`, lines 23-49) for a carrier with
the given name and input `sites` dictionary (association list in
insertion order). -/
def carrierInit (cname : String) (sites : List (ℤ × CSite)) : Except CarrierError MCarrier :=
  carrierInitLoop cname ⟨cname, []⟩ sites

/-- `Carrier.__getitem__` (`carrier.py`, lines 89-93): bounds-checked
site lookup. -/
def MCarrier.getItem (c : MCarrier) (idx : ℤ) : Except CarrierError CSite :=
  if 0 ≤ idx ∧ idx < (c.capacity : ℤ) then
    .ok (c.sites.getD idx.toNat ⟨"", none, none⟩)
  else .error .indexOutOfRange

/-- `Carrier.assign_resource_to_site` (`carrier.py`, lines 71-76):
bounds check, occupancy check, then the site's own assignment (which per
the spec, section 3, stores the single occupant). -/
def MCarrier.assignResourceToSite (c : MCarrier) (resName : String) (spot : ℤ) :
    Except CarrierError MCarrier :=
  if 0 ≤ spot ∧ spot < (c.capacity : ℤ) then
    let i := spot.toNat
    let site := c.sites.getD i ⟨"", none, none⟩
    match site.occupant with
    | some _ => .error .spotOccupied
    | none => .ok { c with sites := c.sites.set i { site with occupant := some resName } }
  else .error .indexOutOfRange

/-- `Carrier.unassign_child_resource` (`carrier.py`, lines 78-87):
checked by name; the occupant's holder must be a site of this carrier. -/
def MCarrier.unassignChildResource (c : MCarrier) (resName : String) :
    Except CarrierError MCarrier :=
  match c.sites.findIdx? fun s => s.occupant = some resName with
  | none => .error .notAssignedToThisCarrier
  | some i =>
    match c.sites.get? i with
    | none => .error .notAssignedToThisCarrier
    | some s => .ok { c with sites := c.sites.set i { s with occupant := none } }

/-- `Carrier.__setitem__` (`carrier.py`, lines 95-102): setting `None`
unassigns the current occupant, if any; setting a resource delegates to
`assign_resource_to_site`. -/
def MCarrier.setItem (c : MCarrier) (idx : ℤ) (resource : Option String) :
    Except CarrierError MCarrier :=
  match resource with
  | none =>
    match c.getItem idx with
    | .error e => .error e
    | .ok site =>
      match site.occupant with
      | none => .ok c
      | some occ => c.unassignChildResource occ
  | some resName => c.assignResourceToSite resName idx

/-- `Carrier.__delitem__` (`carrier.py`, lines 104-108). -/
def MCarrier.delItem (c : MCarrier) (idx : ℤ) : Except CarrierError MCarrier :=
  match c.getItem idx with
  | .error e => .error e
  | .ok site =>
    match site.occupant with
    | none => .ok c
    | some occ => c.unassignChildResource occ

/-- The child-resolution step of `HamiltonDeck.load_from_lay_file`
(`hamilton_decks.py`, line 237): `cont[5 - child["site"]] =
child["resource"]` — the internal site index is hard-coded as `5`
minus the external site id. -/
def layAssignChildToContainer (cont : MCarrier) (siteId : ℤ) (resName : String) :
    Except CarrierError MCarrier :=
  cont.setItem (5 - siteId) (some resName)

/-! ## Theorems -/

/-- C8: the conical-frustum closed forms are mutual inverses: composing
`compute_height_from_volume_conical_frustum` with
`compute_volume_from_height_conical_frustum` returns the original volume
exactly, for every volume, whenever `r1^2 + r1*r2 + r2^2 > 0` (the `pi`
factors cancel). -/
theorem c8_frustum_inverse (pi v r1 r2 : ℚ) (hpi : 0 < pi)
    (hs : 0 < r1^2 + r1*r2 + r2^2) :
    computeVolumeFromHeightConicalFrustum pi
      (computeHeightFromVolumeConicalFrustum pi v r1 r2) r1 r2 = v := by
  unfold computeVolumeFromHeightConicalFrustum computeHeightFromVolumeConicalFrustum
  field_simp
  ring

/-- C8 witness: the inverse property evaluated at `pi = 3`, `v = 5`,
`r1 = r2 = 1`. -/
theorem c8_frustum_inverse_witness :
    (0 : ℚ) < 3 ∧ (0 : ℚ) < 1^2 + 1*1 + 1^2 ∧
    computeVolumeFromHeightConicalFrustum 3
      (computeHeightFromVolumeConicalFrustum 3 5 1 1) 1 1 = 5 :=
  ⟨by norm_num, by norm_num, c8_frustum_inverse 3 5 1 1 (by norm_num) (by norm_num)⟩

/-- C3: each `height_from_volume` solver with finite capacity errors
exactly for volumes strictly above the shape's total capacity, and at a
volume equal to the capacity it succeeds, returning the shape's full
height — never a silently clamped value.  Stated for the four shapes of
the claim: cone+cylinder, hemisphere+cylinder, pyramid+cuboid, and
plain cylinder. -/
theorem c3_capacity_overflow
    (pi : ℚ) (cbrt : ℚ → ℚ) (d hCone hCylinder x y hPyramid hCube v : ℚ)
    (hpi : 0 < pi) (hd : 0 < d) (hcyl : 0 < hCylinder)
    (hx : 0 < x) (hy : 0 < y) (hpyr : 0 < hPyramid) (hcube : 0 < hCube) :
    ((calcH2SegRoundVBottom pi cbrt d hCone hCylinder v = none ↔
        (1/3) * (pi * (d/2)^2) * hCone + (pi * (d/2)^2) * hCylinder < v) ∧
      (v = (1/3) * (pi * (d/2)^2) * hCone + (pi * (d/2)^2) * hCylinder →
        calcH2SegRoundVBottom pi cbrt d hCone hCylinder v = some (hCone + hCylinder))) ∧
    ((calcH2SegRoundUBottom pi d hCylinder v = none ↔
        (2/3) * pi * (d/2)^3 + (pi * (d/2)^2) * hCylinder < v) ∧
      (v = (2/3) * pi * (d/2)^3 + (pi * (d/2)^2) * hCylinder →
        calcH2SegRoundUBottom pi d hCylinder v = some (d/2 + hCylinder))) ∧
    ((calcH2SegSquareVBottom cbrt x y hPyramid hCube v = none ↔
        (1/3) * (x * y) * hPyramid + (x * y) * hCube < v) ∧
      (v = (1/3) * (x * y) * hPyramid + (x * y) * hCube →
        calcH2SegSquareVBottom cbrt x y hPyramid hCube v = some (hPyramid + hCube))) ∧
    ((calcH1SegRoundFBottom pi d hCylinder v = none ↔ pi * (d/2)^2 * hCylinder < v) ∧
      (v = pi * (d/2)^2 * hCylinder →
        calcH1SegRoundFBottom pi d hCylinder v = some hCylinder)) := by
  have hbase : (0 : ℚ) < pi * (d/2)^2 := by positivity
  have hxy : (0 : ℚ) < x * y := by positivity
  refine ⟨⟨?_, ?_⟩, ⟨?_, ?_⟩, ⟨?_, ?_⟩, ⟨?_, ?_⟩⟩
  · -- cone + cylinder: error iff overflow
    simp only [calcH2SegRoundVBottom]
    split_ifs with h1 h2
    · simpa using h1
    · simpa using h1
    · simpa using h1
  · -- cone + cylinder: exact capacity
    intro hv
    have hne : pi * (d/2)^2 ≠ 0 := ne_of_gt hbase
    have hlt : (1/3) * (pi * (d/2)^2) * hCone < v := by
      rw [hv]; nlinarith
    simp only [calcH2SegRoundVBottom]
    rw [if_neg (by rw [hv]; exact lt_irrefl _), if_neg (not_le.mpr hlt)]
    have : (v - (1/3) * (pi * (d/2)^2) * hCone) / (pi * (d/2)^2) = hCylinder := by
      rw [hv]; field_simp; ring
    rw [this]
  · -- hemisphere + cylinder: error iff overflow
    have hcap : capVolume pi (d/2) (d/2) = (2/3) * pi * (d/2)^3 := by
      unfold capVolume; ring
    simp only [calcH2SegRoundUBottom]
    split_ifs with h1 h2
    · simpa using h1
    · simp only [heightOfVolumeInSphericalCap, hcap]
      rw [if_neg (by push_neg; linarith)]
      simpa using h1
    · simpa using h1
  · -- hemisphere + cylinder: exact capacity
    intro hv
    have hne : pi * (d/2)^2 ≠ 0 := ne_of_gt hbase
    have hlt : (2/3) * pi * (d/2)^3 < v := by
      rw [hv]; nlinarith
    simp only [calcH2SegRoundUBottom]
    rw [if_neg (by rw [hv]; exact lt_irrefl _), if_neg (not_le.mpr hlt)]
    have : (v - (2/3) * pi * (d/2)^3) / (pi * (d/2)^2) = hCylinder := by
      rw [hv]; field_simp; ring
    rw [this]
  · -- pyramid + cuboid: error iff overflow
    simp only [calcH2SegSquareVBottom]
    split_ifs with h1 h2
    · simp only [reduceCtorEq, false_iff, not_lt]
      nlinarith
    · simp only [true_iff]
      rw [not_le] at h1
      have h2' : hCube * (x * y) < v - (1/3) * (x * y) * hPyramid := by
        have hq : hCube < (v - (1/3) * (x * y) * hPyramid) / (x * y) := by linarith
        exact (lt_div_iff hxy).mp hq
      nlinarith
    · simp only [reduceCtorEq, false_iff, not_lt]
      rw [not_lt] at h2
      have h2' : v - (1/3) * (x * y) * hPyramid ≤ hCube * (x * y) := by
        have hq : (v - (1/3) * (x * y) * hPyramid) / (x * y) ≤ hCube := by linarith
        exact (div_le_iff hxy).mp hq
      nlinarith
  · -- pyramid + cuboid: exact capacity
    intro hv
    have hne : x * y ≠ 0 := ne_of_gt hxy
    have hgt : (1/3) * (x * y) * hPyramid < v := by rw [hv]; nlinarith
    have hdiv : (v - (1/3) * (x * y) * hPyramid) / (x * y) = hCube := by
      rw [hv]; field_simp
    simp only [calcH2SegSquareVBottom]
    rw [if_neg (not_le.mpr hgt), hdiv]
    simp
  · -- plain cylinder: error iff overflow
    simp only [calcH1SegRoundFBottom]
    split_ifs with h1
    · simpa using h1
    · simpa using h1
  · -- plain cylinder: exact capacity
    intro hv
    have hne : pi * (d/2)^2 ≠ 0 := ne_of_gt hbase
    simp only [calcH1SegRoundFBottom]
    rw [if_neg (by rw [hv]; exact lt_irrefl _)]
    have : v / (pi * (d/2)^2) = hCylinder := by rw [hv]; field_simp
    rw [this]

/-- C3 witness: the capacity/overflow dichotomy evaluated at `pi = 3`,
`cbrt` the identity, `d = 2`, `hCone = 3`, `hCylinder = 1`, `x = y = 1`,
`hPyramid = 3`, `hCube = 1`, `v = 6` (which is exactly the cone+cylinder
capacity `3 + 3`). -/
theorem c3_capacity_overflow_witness :
    (0 : ℚ) < 3 ∧ (0 : ℚ) < 2 ∧ (0 : ℚ) < 1 ∧
    (calcH2SegRoundVBottom 3 id 2 3 1 6 = none ↔
      (1/3 : ℚ) * (3 * (2/2)^2) * 3 + (3 * (2/2)^2) * 1 < 6) ∧
    ((6 : ℚ) = (1/3) * (3 * (2/2)^2) * 3 + (3 * (2/2)^2) * 1 →
      calcH2SegRoundVBottom 3 id 2 3 1 6 = some (3 + 1)) ∧
    (calcH1SegRoundFBottom 3 2 1 6 = none ↔ (3 : ℚ) * (2/2)^2 * 1 < 6) := by
  have h := c3_capacity_overflow 3 id 2 3 1 1 1 3 1 6
    (by norm_num) (by norm_num) (by norm_num) (by norm_num) (by norm_num)
    (by norm_num) (by norm_num)
  exact ⟨by norm_num, by norm_num, by norm_num, h.1.1, h.1.2, h.2.2.2.1⟩

/-- One bisection step halves the bracket width. -/
theorem capStep_width (pi r v : ℚ) (p : ℚ × ℚ) :
    (capStep pi r v p).2 - (capStep pi r v p).1 = (p.2 - p.1) / 2 := by
  simp only [capStep]
  split_ifs <;> simp <;> ring

/-- One bisection step keeps the bracket nested. -/
theorem capStep_bracket (pi r v : ℚ) (p : ℚ × ℚ) (h : p.1 ≤ p.2) :
    p.1 ≤ (capStep pi r v p).1 ∧ (capStep pi r v p).1 ≤ (capStep pi r v p).2 ∧
      (capStep pi r v p).2 ≤ p.2 := by
  simp only [capStep]
  split_ifs <;> simp <;> constructor <;> linarith

/-- The bisection bracket stays inside `[0, r]` and nested. -/
theorem capIter_bracket (pi r v : ℚ) (hr : 0 ≤ r) (n : ℕ) :
    0 ≤ (capIter pi r v n).1 ∧ (capIter pi r v n).1 ≤ (capIter pi r v n).2 ∧
      (capIter pi r v n).2 ≤ r := by
  induction n with
  | zero => exact ⟨le_refl 0, hr, le_refl r⟩
  | succ n ih =>
    simp only [capIter]
    split_ifs with h
    · obtain ⟨h1, h2, h3⟩ := ih
      obtain ⟨g1, g2, g3⟩ := capStep_bracket pi r v (capIter pi r v n) h2
      exact ⟨le_trans h1 g1, g2, le_trans g3 h3⟩
    · exact ih

/-- After `n` iterations the bracket width is either already below the
tolerance or exactly `r / 2 ^ n`. -/
theorem capIter_width (pi r v : ℚ) (n : ℕ) :
    (capIter pi r v n).2 - (capIter pi r v n).1 ≤ capTol ∨
      (capIter pi r v n).2 - (capIter pi r v n).1 = r / 2 ^ n := by
  induction n with
  | zero => right; simp [capIter]
  | succ n ih =>
    simp only [capIter]
    split_ifs with h
    · rcases ih with hle | heq
      · exact absurd h (not_lt.mpr hle)
      · right
        rw [capStep_width, heq, pow_succ]
        ring
    · rcases ih with hle | heq
      · exact Or.inl hle
      · left
        rw [heq] at h ⊢
        exact le_of_not_lt h
  

/-- The fuel bound works: `r / 2 ^ capFuel r ≤ capTol` for `r > 0`. -/
theorem capFuel_spec (r : ℚ) (hr : 0 < r) : r / 2 ^ capFuel r ≤ capTol := by
  unfold capFuel capTol
  set n : ℕ := (⌈(1000000 : ℚ) * r⌉).toNat with hn
  have hx : (0 : ℚ) < 1000000 * r := by positivity
  have hceil : (1000000 : ℚ) * r ≤ (⌈(1000000 : ℚ) * r⌉ : ℚ) := Int.le_ceil _
  have hnn : (0 : ℤ) ≤ ⌈(1000000 : ℚ) * r⌉ := Int.ceil_nonneg (le_of_lt hx)
  have hcast : ((⌈(1000000 : ℚ) * r⌉ : ℤ) : ℚ) = (n : ℚ) := by
    rw [hn]
    exact_mod_cast (Int.toNat_of_nonneg hnn).symm
  have hlt : (n : ℚ) < 2 ^ n := by
    exact_mod_cast Nat.lt_two_pow n
  have hpow : (0 : ℚ) < 2 ^ n := by positivity
  rw [div_le_div_iff hpow (by norm_num : (0 : ℚ) < 1000000)]
  have : (1000000 : ℚ) * r ≤ 2 ^ n := by
    calc (1000000 : ℚ) * r ≤ (⌈(1000000 : ℚ) * r⌉ : ℚ) := hceil
    _ = (n : ℚ) := hcast
    _ ≤ 2 ^ n := le_of_lt hlt
  linarith

/-- The bracket width at the chosen fuel is below the tolerance. -/
theorem capIter_width_at_fuel (pi r v : ℚ) (hr : 0 < r) :
    (heightCapLoop pi r v).2 - (heightCapLoop pi r v).1 ≤ capTol := by
  unfold heightCapLoop
  rcases capIter_width pi r v (capFuel r) with h | h
  · exact h
  · rw [h]; exact capFuel_spec r hr

/-- Termination of the `while` loop: once the bracket width is within
tolerance, further iterations change nothing. -/
theorem capIter_stable (pi r v : ℚ) (n : ℕ)
    (h : (capIter pi r v n).2 - (capIter pi r v n).1 ≤ capTol) :
    ∀ m, n ≤ m → capIter pi r v m = capIter pi r v n := by
  intro m hm
  induction m, hm using Nat.le_induction with
  | base => rfl
  | succ m _ ih =>
    show capIter pi r v (m + 1) = capIter pi r v n
    simp only [capIter, ih]
    rw [if_neg (not_lt.mpr h)]

/-- C7: for every radius `r > 0`, a requested volume strictly above the
hemisphere volume `(2/3)*pi*r^3` makes the spherical-cap solver fail,
while for any volume at most the hemisphere volume the bisection loop
terminates (it is stable from iteration `capFuel r` on), the solver
returns the midpoint of the final bracket, that bracket lies inside
`[0, r]` with width at most the fixed tolerance `1e-6`, and the returned
height lies in `[0, r]`. -/
theorem c7_spherical_cap_bisection (pi r v : ℚ) (hr : 0 < r) :
    ((2/3) * pi * r^3 < v → heightOfVolumeInSphericalCap pi r v = none) ∧
    (v ≤ (2/3) * pi * r^3 →
      heightOfVolumeInSphericalCap pi r v =
        some (((heightCapLoop pi r v).1 + (heightCapLoop pi r v).2) / 2) ∧
      0 ≤ (heightCapLoop pi r v).1 ∧
      (heightCapLoop pi r v).1 ≤ (heightCapLoop pi r v).2 ∧
      (heightCapLoop pi r v).2 ≤ r ∧
      (heightCapLoop pi r v).2 - (heightCapLoop pi r v).1 ≤ capTol ∧
      0 ≤ ((heightCapLoop pi r v).1 + (heightCapLoop pi r v).2) / 2 ∧
      ((heightCapLoop pi r v).1 + (heightCapLoop pi r v).2) / 2 ≤ r ∧
      ∀ m, capFuel r ≤ m → capIter pi r v m = heightCapLoop pi r v) := by
  have hHemi : capVolume pi r r = (2/3) * pi * r^3 := by
    unfold capVolume; ring
  constructor
  · intro hv
    simp only [heightOfVolumeInSphericalCap]
    rw [if_pos (by rw [hHemi]; exact hv)]
  · intro hv
    obtain ⟨h1, h2, h3⟩ :
        0 ≤ (heightCapLoop pi r v).1 ∧
          (heightCapLoop pi r v).1 ≤ (heightCapLoop pi r v).2 ∧
          (heightCapLoop pi r v).2 ≤ r :=
      capIter_bracket pi r v (le_of_lt hr) (capFuel r)
    have hw := capIter_width_at_fuel pi r v hr
    refine ⟨?_, h1, h2, h3, hw, by linarith, by linarith, ?_⟩
    · simp only [heightOfVolumeInSphericalCap]
      rw [if_neg (by rw [hHemi]; exact not_lt.mpr hv)]
    · intro m hm
      exact capIter_stable pi r v (capFuel r) hw m hm

/-- C7 witness: `pi = 3`, `r = 1`, `v = 1 ≤ 2 = (2/3)*3*1^3`. -/
theorem c7_spherical_cap_bisection_witness :
    (0 : ℚ) < 1 ∧
    ((2/3 : ℚ) * 3 * 1^3 < 3 → heightOfVolumeInSphericalCap 3 1 3 = none) ∧
    ((1 : ℚ) ≤ (2/3) * 3 * 1^3 →
      heightOfVolumeInSphericalCap 3 1 1 =
        some (((heightCapLoop 3 1 1).1 + (heightCapLoop 3 1 1).2) / 2) ∧
      0 ≤ (heightCapLoop 3 1 1).1 ∧
      (heightCapLoop 3 1 1).1 ≤ (heightCapLoop 3 1 1).2 ∧
      (heightCapLoop 3 1 1).2 ≤ 1 ∧
      (heightCapLoop 3 1 1).2 - (heightCapLoop 3 1 1).1 ≤ capTol ∧
      0 ≤ ((heightCapLoop 3 1 1).1 + (heightCapLoop 3 1 1).2) / 2 ∧
      ((heightCapLoop 3 1 1).1 + (heightCapLoop 3 1 1).2) / 2 ≤ 1 ∧
      ∀ m, capFuel 1 ≤ m → capIter 3 1 1 m = heightCapLoop 3 1 1) :=
  ⟨by norm_num, (c7_spherical_cap_bisection 3 1 3 (by norm_num)).1,
    fun _ => (c7_spherical_cap_bisection 3 1 1 (by norm_num)).2 (by norm_num)⟩

/-- The collision loop characterized, provided every existing child has
a concrete location: it returns `ok` exactly when no child trips the
overlap test, and a `locationOccupied` error exactly when some child
does. -/
theorem collisionScan_spec (cs : List DeckChild) (rl : Coordinate) (w h : ℚ)
    (hloc : ∀ c ∈ cs, c.loc.isSome) :
    (collisionScan cs rl w h = .ok () ↔
      ∀ c ∈ cs, ∀ ogLoc, c.loc = some ogLoc →
        ¬ codeOverlap ogLoc.x ogLoc.y c.res.size_x c.res.size_y rl w h) ∧
    ((∃ n, collisionScan cs rl w h = .error (.locationOccupied n)) ↔
      ∃ c ∈ cs, ∃ ogLoc, c.loc = some ogLoc ∧
        codeOverlap ogLoc.x ogLoc.y c.res.size_x c.res.size_y rl w h) := by
  induction cs with
  | nil => simp [collisionScan]
  | cons og rest ih =>
    obtain ⟨ogLoc, hog⟩ : ∃ l, og.loc = some l := by
      have := hloc og (List.mem_cons_self og rest)
      exact Option.isSome_iff_exists.mp this
    have hrest := ih fun c hc => hloc c (List.mem_cons_of_mem og hc)
    simp only [collisionScan, hog]
    split_ifs with hcol
    · constructor
      · constructor
        · intro hcontra; exact absurd hcontra (by simp)
        · intro hall
          exact absurd hcol (hall og (List.mem_cons_self og rest) ogLoc hog)
      · constructor
        · intro _; exact ⟨og, List.mem_cons_self og rest, ogLoc, hog, hcol⟩
        · intro _; exact ⟨og.res.name, rfl⟩
    · constructor
      · constructor
        · intro hok c hc l hl hover
          rcases List.mem_cons.mp hc with rfl | hc'
          · rw [hog] at hl; injection hl with hl'; subst hl'; exact hcol hover
          · exact (hrest.1.mp hok) c hc' l hl hover
        · intro hall
          exact hrest.1.mpr fun c hc => hall c (List.mem_cons_of_mem og hc)
      · constructor
        · intro hex
          obtain ⟨c, hc, l, hl, hover⟩ := hrest.2.mp hex
          exact ⟨c, List.mem_cons_of_mem og hc, l, hl, hover⟩
        · rintro ⟨c, hc, l, hl, hover⟩
          rcases List.mem_cons.mp hc with rfl | hc'
          · rw [hog] at hl; injection hl with hl'; subst hl'
            exact absurd hover hcol
          · exact hrest.2.mpr ⟨c, hc', l, hl, hover⟩

/-- The source's overlap test is sound for candidates with positive
extents: whenever it trips, the two rectangles strictly overlap on both
axes.  (It is not complete: a candidate that strictly contains an
existing child trips neither disjunct.) -/
theorem codeOverlap_strict (ogX ogY ogW ogH : ℚ) (cand : Coordinate) (w h : ℚ)
    (hw : 0 < w) (hh : 0 < h)
    (hover : codeOverlap ogX ogY ogW ogH cand w h) :
    rectsStrictlyOverlap ogX ogY ogW ogH cand.x cand.y w h := by
  obtain ⟨hx, hy⟩ := hover
  refine ⟨?_, ?_, ?_, ?_⟩
  · rcases hx with ⟨h1, h2⟩ | ⟨h1, h2⟩ <;> linarith
  · rcases hx with ⟨h1, h2⟩ | ⟨h1, h2⟩ <;> linarith
  · rcases hy with ⟨h1, h2⟩ | ⟨h1, h2⟩ <;> linarith
  · rcases hy with ⟨h1, h2⟩ | ⟨h1, h2⟩ <;> linarith

/-- C1 (amended): on a deck whose children all have concrete locations,
assigning a fresh-named resource with positive extents at a concrete
`location` (no `rails`) raises `locationOccupied` exactly when some
existing child trips the source's one-sided overlap test; that test
implies strict overlap on both axes (so merely touching placements are
never rejected), and whenever no child strictly overlaps the candidate
the assignment succeeds.  The original claim — rejection exactly at
strict overlap — fails in the other direction: a candidate strictly
containing a child is not rejected (see the counterexample). -/
theorem c1_collision_detection (deck : HDeck) (res : DeckRes) (rl : Coordinate)
    (hloc : ∀ c ∈ deck.children, c.loc.isSome)
    (hfresh : ∀ c ∈ deck.children, c.res.name ≠ res.name)
    (hw : 0 < res.size_x) (hh : 0 < res.size_y) :
    ((∃ n, hamiltonAssign deck res (some rl) none false = .error (.locationOccupied n)) ↔
      ∃ c ∈ deck.children, ∃ ogLoc, c.loc = some ogLoc ∧
        codeOverlap ogLoc.x ogLoc.y c.res.size_x c.res.size_y rl res.size_x res.size_y) ∧
    (∀ c ∈ deck.children, ∀ ogLoc, c.loc = some ogLoc →
      codeOverlap ogLoc.x ogLoc.y c.res.size_x c.res.size_y rl res.size_x res.size_y →
      rectsStrictlyOverlap ogLoc.x ogLoc.y c.res.size_x c.res.size_y
        rl.x rl.y res.size_x res.size_y) ∧
    ((∀ c ∈ deck.children, ∀ ogLoc, c.loc = some ogLoc →
        ¬ rectsStrictlyOverlap ogLoc.x ogLoc.y c.res.size_x c.res.size_y
          rl.x rl.y res.size_x res.size_y) →
      hamiltonAssign deck res (some rl) none false =
        .ok { deck with children := deck.children ++ [⟨res, some rl⟩] }) := by
  have hname : (deck.children.any fun c => c.res.name = res.name) = false := by
    simp only [List.any_eq_false, decide_eq_true_eq]
    intro c hc
    exact hfresh c hc
  have hred : hamiltonAssign deck res (some rl) none false =
      match collisionScan deck.children rl res.size_x res.size_y with
      | .error e => .error e
      | .ok _ => .ok { deck with children := deck.children ++ [⟨res, some rl⟩] } := by
    simp only [hamiltonAssign, railsRangeViolated, Bool.false_eq_true, if_false, hname,
      hamiltonAssign.hamiltonAssignLocated, Option.isSome_none, and_false]
  have hscan := collisionScan_spec deck.children rl res.size_x res.size_y hloc
  refine ⟨?_, ?_, ?_⟩
  · rw [hred]
    constructor
    · rintro ⟨n, hn⟩
      apply hscan.2.mp
      refine ⟨n, ?_⟩
      cases hs : collisionScan deck.children rl res.size_x res.size_y with
      | error e => rw [hs] at hn; injection hn with hn'; rw [← hn']
      | ok u => rw [hs] at hn; exact absurd hn (by simp)
    · intro hex
      obtain ⟨n, hn⟩ := hscan.2.mpr hex
      exact ⟨n, by rw [hn]⟩
  · intro c hc ogLoc hl hover
    exact codeOverlap_strict _ _ _ _ _ _ _ hw hh hover
  · intro hnone
    rw [hred]
    have hok : collisionScan deck.children rl res.size_x res.size_y = .ok () := by
      apply hscan.1.mpr
      intro c hc l hl hover
      exact hnone c hc l hl (codeOverlap_strict _ _ _ _ _ _ _ hw hh hover)
    rw [hok]

/-- C1 counterexample: a candidate whose footprint strictly contains an
existing sibling (strict overlap on both axes) is nevertheless accepted,
because the source only tests the candidate's own corners against the
sibling's span.  This refutes the claim's "fails exactly when the
footprints strictly overlap". -/
theorem c1_containment_missed :
    rectsStrictlyOverlap 10 10 5 5 0 0 100 100 ∧
    hamiltonAssign ⟨30, [⟨⟨"small", 5, 5⟩, some ⟨10, 10, 0⟩⟩]⟩ ⟨"big", 100, 100⟩
        (some ⟨0, 0, 0⟩) none false =
      .ok ⟨30, [⟨⟨"small", 5, 5⟩, some ⟨10, 10, 0⟩⟩, ⟨⟨"big", 100, 100⟩, some ⟨0, 0, 0⟩⟩]⟩ := by
  constructor
  · unfold rectsStrictlyOverlap
    norm_num
  · simp only [hamiltonAssign, hamiltonAssign.hamiltonAssignLocated, railsRangeViolated,
      railsToLocation, collisionScan, codeOverlap]
    norm_num
    exact fun h => absurd h (by decide)

/-- C1 witness: a 50x50 candidate placed at `x = 235`, exactly touching
the right edge of a 135-wide child at `x = 100`, is accepted (touching
edges never collide). -/
theorem c1_collision_detection_witness :
    (∀ c ∈ [(⟨⟨"tip_car", 135, 497⟩, some ⟨100, 63, 100⟩⟩ : DeckChild)], c.loc.isSome) ∧
    (∀ c ∈ [(⟨⟨"tip_car", 135, 497⟩, some ⟨100, 63, 100⟩⟩ : DeckChild)], c.res.name ≠ "c2") ∧
    (0 : ℚ) < 50 ∧
    hamiltonAssign ⟨30, [⟨⟨"tip_car", 135, 497⟩, some ⟨100, 63, 100⟩⟩]⟩ ⟨"c2", 50, 50⟩
        (some ⟨235, 63, 0⟩) none false =
      .ok ⟨30, [⟨⟨"tip_car", 135, 497⟩, some ⟨100, 63, 100⟩⟩,
                ⟨⟨"c2", 50, 50⟩, some ⟨235, 63, 0⟩⟩]⟩ := by
  refine ⟨by decide, by decide, by norm_num, ?_⟩
  refine (c1_collision_detection ⟨30, [⟨⟨"tip_car", 135, 497⟩, some ⟨100, 63, 100⟩⟩]⟩
      ⟨"c2", 50, 50⟩ ⟨235, 63, 0⟩ (by decide) (by decide) (by norm_num) (by norm_num)).2.2 ?_
  intro c hc l hl
  rcases List.mem_singleton.mp hc with rfl
  injection hl with h
  subst h
  unfold rectsStrictlyOverlap
  norm_num

/-- C4 (code bug): passing both a concrete `location` and a `rails`
argument does not raise; the source silently ignores `location` and
places the resource at the rails position `(100, 63, 100)`, contrary to
the claim and to the method's own docstring ("Either rails or location
must be None, but not both"). -/
theorem c4_both_location_and_rails_accepted :
    hamiltonAssign ⟨30, []⟩ ⟨"plate_carrier", 135, 497⟩ (some ⟨0, 0, 0⟩) (some 1) false =
      .ok ⟨30, [⟨⟨"plate_carrier", 135, 497⟩, some ⟨100, 63, 100⟩⟩]⟩ := by
  simp only [hamiltonAssign, hamiltonAssign.hamiltonAssignLocated, railsRangeViolated,
    railsToLocation, collisionScan]
  norm_num

/-- C10: assigning a fresh-named resource with neither `location` nor
`rails` always succeeds, for every deck state: no collision or bounds
check runs, and the child is attached with relative location `None` —
even when the deck already holds overlapping or unlocated children. -/
theorem c10_unlocated_assignment (deck : HDeck) (res : DeckRes)
    (hfresh : ∀ c ∈ deck.children, c.res.name ≠ res.name) :
    hamiltonAssign deck res none none false =
      .ok { deck with children := deck.children ++ [⟨res, none⟩] } := by
  have hname : (deck.children.any fun c => c.res.name = res.name) = false := by
    simp only [List.any_eq_false, decide_eq_true_eq]
    exact hfresh
  simp only [hamiltonAssign, railsRangeViolated, Bool.false_eq_true, if_false, hname,
    hamiltonAssign.hamiltonAssignLocated]

/-- C10 witness: a deck holding two overlapping children and one
unlocated child still accepts a huge fresh resource without a location. -/
theorem c10_unlocated_assignment_witness :
    (∀ c ∈ [(⟨⟨"a", 100, 100⟩, some ⟨0, 0, 0⟩⟩ : DeckChild),
            ⟨⟨"b", 100, 100⟩, some ⟨0, 0, 0⟩⟩, ⟨⟨"c", 10, 10⟩, none⟩],
        c.res.name ≠ "d") ∧
    hamiltonAssign
        ⟨30, [⟨⟨"a", 100, 100⟩, some ⟨0, 0, 0⟩⟩, ⟨⟨"b", 100, 100⟩, some ⟨0, 0, 0⟩⟩,
              ⟨⟨"c", 10, 10⟩, none⟩]⟩
        ⟨"d", 1000, 1000⟩ none none false =
      .ok ⟨30, [⟨⟨"a", 100, 100⟩, some ⟨0, 0, 0⟩⟩, ⟨⟨"b", 100, 100⟩, some ⟨0, 0, 0⟩⟩,
                ⟨⟨"c", 10, 10⟩, none⟩, ⟨⟨"d", 1000, 1000⟩, none⟩]⟩ :=
  ⟨by decide,
    c10_unlocated_assignment
      ⟨30, [⟨⟨"a", 100, 100⟩, some ⟨0, 0, 0⟩⟩, ⟨⟨"b", 100, 100⟩, some ⟨0, 0, 0⟩⟩,
            ⟨⟨"c", 10, 10⟩, none⟩]⟩
      ⟨"d", 1000, 1000⟩ (by decide)⟩

/-- Successful `Carrier.assign_child_resource` appends exactly one site. -/
theorem assignChildResource_ok (c : MCarrier) (s : CSite) (loc : Coordinate) (c' : MCarrier)
    (h : c.assignChildResource s loc = .ok c') : c'.sites = c.sites ++ [s] := by
  simp only [MCarrier.assignChildResource] at h
  split_ifs at h
  injection h with h'
  rw [← h']

/-- The construction loop adds exactly one site per input entry. -/
theorem carrierInitLoop_length (cname : String) :
    ∀ (input : List (ℤ × CSite)) (c c' : MCarrier),
      carrierInitLoop cname c input = .ok c' →
      c'.sites.length = c.sites.length + input.length := by
  intro input
  induction input with
  | nil =>
    intro c c' h
    simp only [carrierInitLoop] at h
    injection h with h'
    rw [h']
    simp
  | cons p rest ih =>
    intro c c' h
    simp only [carrierInitLoop] at h
    split at h
    · exact absurd h (by simp)
    · split at h
      · exact absurd h (by simp)
      · next c1 ha =>
          have hlen : c1.sites.length = c.sites.length + 1 := by
            rw [assignChildResource_ok _ _ _ _ ha]
            simp
          have := ih c1 c' h
          rw [this, hlen]
          simp
          omega

/-- Replacing a site's occupant in place never changes the list of site
names. -/
theorem map_name_set_occupant (l : List CSite) :
    ∀ (i : ℕ) (s : CSite) (occ : Option String), l.get? i = some s →
      (l.set i { s with occupant := occ }).map CSite.name = l.map CSite.name := by
  induction l with
  | nil => intro i s occ h; simp at h
  | cons a t ih =>
    intro i s occ h
    cases i with
    | zero =>
      simp only [List.get?] at h
      injection h with h'
      subst h'
      simp
    | succ n =>
      simp only [List.get?] at h
      simp [ih n s occ h]

/-- `assign_resource_to_site` preserves the carrier's capacity and the
name of every site. -/
theorem assignResourceToSite_preserves (c c' : MCarrier) (rn : String) (spot : ℤ)
    (h : c.assignResourceToSite rn spot = .ok c') :
    c'.capacity = c.capacity ∧ c'.sites.map CSite.name = c.sites.map CSite.name := by
  simp only [MCarrier.assignResourceToSite] at h
  split_ifs at h with hb
  split at h
  · exact absurd h (by simp)
  · injection h with h'
    subst h'
    have hi : spot.toNat < c.sites.length := by
      have := hb.2
      simp only [MCarrier.capacity] at this
      omega
    have hget : c.sites.get? spot.toNat = some (c.sites.getD spot.toNat ⟨"", none, none⟩) := by
      rw [List.getD_eq_get? ]
      rcases hg : c.sites.get? spot.toNat with _ | s
      · rw [List.get?_eq_none] at hg
        omega
      · rfl
    constructor
    · simp [MCarrier.capacity]
    · exact map_name_set_occupant c.sites spot.toNat _ _ hget

/-- `unassign_child_resource` preserves the carrier's capacity and the
name of every site. -/
theorem unassignChildResource_preserves (c c' : MCarrier) (rn : String)
    (h : c.unassignChildResource rn = .ok c') :
    c'.capacity = c.capacity ∧ c'.sites.map CSite.name = c.sites.map CSite.name := by
  simp only [MCarrier.unassignChildResource] at h
  split at h
  · exact absurd h (by simp)
  · next i hfind =>
      split at h
      · exact absurd h (by simp)
      · next s hget =>
          injection h with h'
          subst h'
          exact ⟨by simp [MCarrier.capacity],
            map_name_set_occupant c.sites i s none hget⟩

/-- `__setitem__` preserves the carrier's capacity and the name of every
site. -/
theorem setItem_preserves (c c' : MCarrier) (idx : ℤ) (r : Option String)
    (h : c.setItem idx r = .ok c') :
    c'.capacity = c.capacity ∧ c'.sites.map CSite.name = c.sites.map CSite.name := by
  simp only [MCarrier.setItem] at h
  split at h
  · -- setting None
    split at h
    · exact absurd h (by simp)
    · split at h
      · injection h with h'
        subst h'
        exact ⟨rfl, rfl⟩
      · exact unassignChildResource_preserves _ _ _ h
  · exact assignResourceToSite_preserves _ _ _ _ h

/-- `__delitem__` preserves the carrier's capacity and the name of every
site. -/
theorem delItem_preserves (c c' : MCarrier) (idx : ℤ)
    (h : c.delItem idx = .ok c') :
    c'.capacity = c.capacity ∧ c'.sites.map CSite.name = c.sites.map CSite.name := by
  simp only [MCarrier.delItem] at h
  split at h
  · exact absurd h (by simp)
  · split at h
    · injection h with h'
      subst h'
      exact ⟨rfl, rfl⟩
    · exact unassignChildResource_preserves _ _ _ h

/-- C6 (amended): a carrier constructed from `N` input sites reports
`capacity = N`, and `get(i)` succeeds for every `0 ≤ i < N`; capacity
and the per-index sites are preserved by every site-level operation
(`assign_resource_to_site`, `__setitem__`, `__delitem__`,
`unassign_child_resource`).  The original claim's "capacity stays fixed
under any subsequent operation" fails for `assign_child_resource`
itself, which appends a new site after construction (see the
counterexample). -/
theorem c6_capacity_and_sites (cname : String) (input : List (ℤ × CSite)) (c : MCarrier)
    (hinit : carrierInit cname input = .ok c) :
    (c.capacity = input.length ∧
      ∀ i : ℤ, 0 ≤ i → i < (c.capacity : ℤ) → ∃ s, c.getItem i = .ok s) ∧
    (∀ (c1 c2 : MCarrier) (rn : String) (spot : ℤ),
      c1.assignResourceToSite rn spot = .ok c2 →
      c2.capacity = c1.capacity ∧ c2.sites.map CSite.name = c1.sites.map CSite.name) ∧
    (∀ (c1 c2 : MCarrier) (idx : ℤ) (r : Option String),
      c1.setItem idx r = .ok c2 →
      c2.capacity = c1.capacity ∧ c2.sites.map CSite.name = c1.sites.map CSite.name) ∧
    (∀ (c1 c2 : MCarrier) (idx : ℤ),
      c1.delItem idx = .ok c2 →
      c2.capacity = c1.capacity ∧ c2.sites.map CSite.name = c1.sites.map CSite.name) ∧
    (∀ (c1 c2 : MCarrier) (rn : String),
      c1.unassignChildResource rn = .ok c2 →
      c2.capacity = c1.capacity ∧ c2.sites.map CSite.name = c1.sites.map CSite.name) := by
  refine ⟨⟨?_, ?_⟩, fun c1 c2 rn spot h => assignResourceToSite_preserves c1 c2 rn spot h,
    fun c1 c2 idx r h => setItem_preserves c1 c2 idx r h,
    fun c1 c2 idx h => delItem_preserves c1 c2 idx h,
    fun c1 c2 rn h => unassignChildResource_preserves c1 c2 rn h⟩
  · have := carrierInitLoop_length cname input ⟨cname, []⟩ c hinit
    simpa [MCarrier.capacity] using this
  · intro i h0 h1
    simp only [MCarrier.getItem]
    rw [if_pos ⟨h0, h1⟩]
    exact ⟨_, rfl⟩

/-- C6 witness: a carrier built from one site has capacity 1 and a
successful `get(0)`. -/
theorem c6_capacity_and_sites_witness :
    carrierInit "car2" [(4, ⟨"x", some ⟨1, 2, 3⟩, none⟩)] =
      .ok ⟨"car2", [⟨"carrier-car2-spot-4", some ⟨1, 2, 3⟩, none⟩]⟩ ∧
    (⟨"car2", [⟨"carrier-car2-spot-4", some ⟨1, 2, 3⟩, none⟩]⟩ : MCarrier).capacity = 1 ∧
    ∀ i : ℤ, 0 ≤ i →
      i < ((⟨"car2", [⟨"carrier-car2-spot-4", some ⟨1, 2, 3⟩, none⟩]⟩ : MCarrier).capacity : ℤ) →
      ∃ s, (⟨"car2", [⟨"carrier-car2-spot-4", some ⟨1, 2, 3⟩, none⟩]⟩ : MCarrier).getItem i =
        .ok s := by
  have hinit : carrierInit "car2" [(4, ⟨"x", some ⟨1, 2, 3⟩, none⟩)] =
      .ok ⟨"car2", [⟨"carrier-car2-spot-4", some ⟨1, 2, 3⟩, none⟩]⟩ := by rfl
  have h := (c6_capacity_and_sites "car2" [(4, ⟨"x", some ⟨1, 2, 3⟩, none⟩)]
    ⟨"car2", [⟨"carrier-car2-spot-4", some ⟨1, 2, 3⟩, none⟩]⟩ hinit).1
  exact ⟨hinit, h.1, h.2⟩

/-- C6 counterexample: calling `assign_child_resource` on an
already-constructed one-site carrier appends a second site, so capacity
does not stay fixed under this operation. -/
theorem c6_assign_grows_capacity :
    carrierInit "car" [(0, ⟨"s", some ⟨0, 0, 0⟩, none⟩)] =
      .ok ⟨"car", [⟨"carrier-car-spot-0", some ⟨0, 0, 0⟩, none⟩]⟩ ∧
    MCarrier.assignChildResource ⟨"car", [⟨"carrier-car-spot-0", some ⟨0, 0, 0⟩, none⟩]⟩
        ⟨"extra", some ⟨0, 0, 0⟩, none⟩ ⟨0, 0, 0⟩ =
      .ok ⟨"car", [⟨"carrier-car-spot-0", some ⟨0, 0, 0⟩, none⟩,
                   ⟨"extra", some ⟨0, 0, 0⟩, none⟩]⟩ ∧
    (⟨"car", [⟨"carrier-car-spot-0", some ⟨0, 0, 0⟩, none⟩]⟩ : MCarrier).capacity = 1 ∧
    (⟨"car", [⟨"carrier-car-spot-0", some ⟨0, 0, 0⟩, none⟩,
              ⟨"extra", some ⟨0, 0, 0⟩, none⟩]⟩ : MCarrier).capacity = 2 := by
  refine ⟨by rfl, by rfl, rfl, rfl⟩

/-- C5 (amended): the layout importer's child resolution uses the
hard-coded internal index `5 - external_site_id`; this agrees with the
claim's `(sites_per_container - 1) - external_site_id` exactly when the
container has 6 sites. -/
theorem c5_site_index_remap (cont : MCarrier) (siteId : ℤ) (resName : String)
    (hcap : cont.capacity = 6) :
    layAssignChildToContainer cont siteId resName =
      cont.setItem (((cont.capacity : ℤ) - 1) - siteId) (some resName) := by
  unfold layAssignChildToContainer
  rw [hcap]
  norm_num

/-- C5 witness: on a concrete 6-site container the code's index agrees
with the claim's formula. -/
theorem c5_site_index_remap_witness :
    (⟨"plt", [⟨"s0", none, none⟩, ⟨"s1", none, none⟩, ⟨"s2", none, none⟩,
              ⟨"s3", none, none⟩, ⟨"s4", none, none⟩, ⟨"s5", none, none⟩]⟩ :
      MCarrier).capacity = 6 ∧
    layAssignChildToContainer
        ⟨"plt", [⟨"s0", none, none⟩, ⟨"s1", none, none⟩, ⟨"s2", none, none⟩,
                 ⟨"s3", none, none⟩, ⟨"s4", none, none⟩, ⟨"s5", none, none⟩]⟩ 0 "p" =
      MCarrier.setItem
        ⟨"plt", [⟨"s0", none, none⟩, ⟨"s1", none, none⟩, ⟨"s2", none, none⟩,
                 ⟨"s3", none, none⟩, ⟨"s4", none, none⟩, ⟨"s5", none, none⟩]⟩
        ((((⟨"plt", [⟨"s0", none, none⟩, ⟨"s1", none, none⟩, ⟨"s2", none, none⟩,
                     ⟨"s3", none, none⟩, ⟨"s4", none, none⟩, ⟨"s5", none, none⟩]⟩ :
            MCarrier).capacity : ℤ) - 1) - 0) (some "p") :=
  ⟨rfl, c5_site_index_remap
    ⟨"plt", [⟨"s0", none, none⟩, ⟨"s1", none, none⟩, ⟨"s2", none, none⟩,
             ⟨"s3", none, none⟩, ⟨"s4", none, none⟩, ⟨"s5", none, none⟩]⟩ 0 "p" rfl⟩

/-- C5 counterexample: on a 4-site container the code targets index
`5 - 0 = 5`, which is out of range and raises, while the claim's index
`(4 - 1) - 0 = 3` would succeed — so the remap rule of the claim does
not hold for containers that do not have 6 sites. -/
theorem c5_hardcoded_five :
    layAssignChildToContainer
        ⟨"c4", [⟨"s0", none, none⟩, ⟨"s1", none, none⟩,
                ⟨"s2", none, none⟩, ⟨"s3", none, none⟩]⟩ 0 "p" =
      .error .indexOutOfRange ∧
    MCarrier.setItem
        ⟨"c4", [⟨"s0", none, none⟩, ⟨"s1", none, none⟩,
                ⟨"s2", none, none⟩, ⟨"s3", none, none⟩]⟩ ((4 - 1) - 0) (some "p") =
      .ok ⟨"c4", [⟨"s0", none, none⟩, ⟨"s1", none, none⟩,
                  ⟨"s2", none, none⟩, ⟨"s3", none, some "p"⟩]⟩ := by
  refine ⟨by rfl, by rfl⟩

/-- A nonempty constant list deduplicates to a singleton. -/
theorem dedup_const : ∀ (l : List ℚ) (a : ℚ), l ≠ [] → (∀ x ∈ l, x = a) → l.dedup = [a] := by
  intro l
  induction l with
  | nil => intro a h _; exact absurd rfl h
  | cons b t ih =>
    intro a hne hall
    have hb : b = a := hall b (List.mem_cons_self b t)
    subst hb
    rcases eq_or_ne t [] with rfl | htne
    · rw [List.dedup_cons_of_not_mem (by simp), List.dedup_nil]
    · have hdt : t.dedup = [b] := ih b htne fun x hx => hall x (List.mem_cons_of_mem b hx)
      have hmem : b ∈ t := by
        rcases t with _ | ⟨c, t2⟩
        · exact absurd rfl htne
        · have hc : c = b := hall c (by simp)
          simp [hc]
      rw [List.dedup_cons_of_mem hmem, hdt]

/-- When every located well of a plate sits at the same `z` offset `wc`
and at least one located well exists, the collected set of rounded well
z-locations is the singleton `[round2 wc]`. -/
theorem wellDzValues_const (p : RNode) (wc : ℚ)
    (hall : ∀ w ∈ p.getAllChildren, w.category = "well" → ∀ l, w.loc = some l → l.z = wc)
    (hex : ∃ w ∈ p.getAllChildren, w.category = "well" ∧ w.loc.isSome) :
    wellDzValues p = [round2 wc] := by
  unfold wellDzValues
  apply dedup_const
  · obtain ⟨w, hw, hcat, hsome⟩ := hex
    obtain ⟨l, hl⟩ := Option.isSome_iff_exists.mp hsome
    have hmem : l.z ∈ p.getAllChildren.filterMap fun w =>
        if w.category = "well" then w.loc.map (fun l => l.z) else none := by
      apply List.mem_filterMap.mpr
      exact ⟨w, hw, by rw [if_pos hcat, hl]; rfl⟩
    exact List.ne_nil_of_mem (List.mem_map_of_mem round2 hmem)
  · intro q hq
    obtain ⟨z, hz, rfl⟩ := List.mem_map.mp hq
    obtain ⟨w, hw, hfw⟩ := List.mem_filterMap.mp hz
    by_cases hcat : w.category = "well"
    · rw [if_pos hcat] at hfw
      obtain ⟨l, hl, hlz⟩ := Option.map_eq_some'.mp hfw
      rw [← hlz, hall w hw hcat l hl]
    · rw [if_neg hcat] at hfw
      exact absurd hfw (by simp)

/-- Negating a pure-z coordinate. -/
theorem neg_zCoordinate (m : ℚ) : -(⟨0, 0, m⟩ : Coordinate) = ⟨0, 0, -m⟩ := by
  show (⟨-(0 : ℚ), -(0 : ℚ), -m⟩ : Coordinate) = ⟨0, 0, -m⟩
  norm_num

/-- C2 (amended): for a plate all of whose located wells share the exact
z-offset `wc` (at least one well present), the location computed by
`PlateHolder.get_default_child_location` is the base placement location
shifted along z by exactly `-min(|pedestal_size_z|, round(wc, 2))` — the
code pops the *rounded* well clearance from its sanity-check set.  The
same holds for a z-stack whose first member is that plate.  With `wc`
already two-decimal (as in the claim's `7` and `3` examples) this is the
claim's `-min(|pedestal_size_z|, wc)`. -/
theorem c2_sinking_offset (pedestal wc : ℚ) (p : RNode)
    (hkind : p.kind = .plate)
    (hall : ∀ w ∈ p.getAllChildren, w.category = "well" → ∀ l, w.loc = some l → l.z = wc)
    (hex : ∃ w ∈ p.getAllChildren, w.category = "well" ∧ w.loc.isSome) :
    plateHolderDefaultChildLocation pedestal p =
      some (baseDefaultChildLocation p + ⟨0, 0, -(min |pedestal| (round2 wc))⟩) ∧
    ∀ (dir nm cat : String) (l : Option Coordinate) (rest : List RNode),
      plateHolderDefaultChildLocation pedestal (.mk (.stack dir) nm cat l (p :: rest)) =
        some (baseDefaultChildLocation (.mk (.stack dir) nm cat l (p :: rest)) +
          ⟨0, 0, -(min |pedestal| (round2 wc))⟩) := by
  have hplate : getPlateSinkingDepth pedestal p = some (min |pedestal| (round2 wc)) := by
    unfold getPlateSinkingDepth
    rw [wellDzValues_const p wc hall hex]
  obtain ⟨k, pn, pc, pl, pcs⟩ := p
  simp only [RNode.kind] at hkind
  subst hkind
  constructor
  · simp only [plateHolderDefaultChildLocation, getSinkingDepth, RNode.kind, hplate,
      Option.map_some', neg_zCoordinate]
  · intro dir nm cat l rest
    simp only [plateHolderDefaultChildLocation, getSinkingDepth, RNode.kind, RNode.children,
      hplate, Option.map_some', neg_zCoordinate]

/-- C9: whenever the collected set of rounded well z-locations of a
plate has more than one distinct value, `_get_sinking_depth` fails with
the assertion error (modelled as `none`) instead of computing any
offset; likewise when the plate is the bottom member of a z-stack. -/
theorem c9_well_clearance_integrity (pedestal : ℚ) (p : RNode)
    (hkind : p.kind = .plate) (hmany : 1 < (wellDzValues p).length) :
    getSinkingDepth pedestal p = none ∧
    ∀ (dir nm cat : String) (l : Option Coordinate) (rest : List RNode),
      getSinkingDepth pedestal (.mk (.stack dir) nm cat l (p :: rest)) = none := by
  have hnone : getPlateSinkingDepth pedestal p = none := by
    unfold getPlateSinkingDepth
    rcases hW : wellDzValues p with _ | ⟨a, _ | ⟨b, t⟩⟩
    · rfl
    · rw [hW] at hmany
      simp at hmany
    · rfl
  obtain ⟨k, pn, pc, pl, pcs⟩ := p
  simp only [RNode.kind] at hkind
  subst hkind
  constructor
  · simp only [getSinkingDepth, RNode.kind, hnone, Option.map_none']
  · intro dir nm cat l rest
    simp only [getSinkingDepth, RNode.kind, RNode.children, hnone, Option.map_none']

/-- Rounding an exact two-decimal rational changes nothing: `round2`
evaluated on the integers used by the spec's examples. -/
theorem round2_int (n : ℤ) : round2 (n : ℚ) = n := by
  unfold round2
  rw [show ((n : ℚ) * 100) = ((n * 100 : ℤ) : ℚ) by push_cast; ring, round_intCast]
  push_cast
  ring

/-- C2 witness: the spec's two numeric examples. A pedestal of `-5` with
well clearance `7` sinks by exactly `5`; a pedestal of `-10` with well
clearance `3` sinks by exactly `3`. -/
theorem c2_sinking_offset_witness :
    min |(-5 : ℚ)| (round2 7) = 5 ∧
    min |(-10 : ℚ)| (round2 3) = 3 ∧
    plateHolderDefaultChildLocation (-5)
        (.mk .plate "p1" "plate" none [.mk .other "w1" "well" (some ⟨0, 0, 7⟩) []]) =
      some (baseDefaultChildLocation
          (.mk .plate "p1" "plate" none [.mk .other "w1" "well" (some ⟨0, 0, 7⟩) []]) +
        ⟨0, 0, -(min |(-5 : ℚ)| (round2 7))⟩) ∧
    plateHolderDefaultChildLocation (-10)
        (.mk .plate "p2" "plate" none [.mk .other "w2" "well" (some ⟨0, 0, 3⟩) []]) =
      some (baseDefaultChildLocation
          (.mk .plate "p2" "plate" none [.mk .other "w2" "well" (some ⟨0, 0, 3⟩) []]) +
        ⟨0, 0, -(min |(-10 : ℚ)| (round2 3))⟩) := by
  have h7 : round2 7 = 7 := by exact_mod_cast round2_int 7
  have h3 : round2 3 = 3 := by exact_mod_cast round2_int 3
  refine ⟨by rw [h7]; norm_num, by rw [h3]; norm_num, ?_, ?_⟩
  · refine (c2_sinking_offset (-5) 7
      (.mk .plate "p1" "plate" none [.mk .other "w1" "well" (some ⟨0, 0, 7⟩) []])
      rfl ?_ ?_).1
    · intro w hw hcat l hl
      have hg : (RNode.mk .plate "p1" "plate" none
          [.mk .other "w1" "well" (some ⟨0, 0, 7⟩) []]).getAllChildren =
          [.mk .other "w1" "well" (some ⟨0, 0, 7⟩) []] := rfl
      rw [hg] at hw
      have hww := List.mem_singleton.mp hw
      subst hww
      injection hl with h2
      rw [← h2]
    · exact ⟨.mk .other "w1" "well" (some ⟨0, 0, 7⟩) [], by
        exact List.mem_singleton_self _, rfl, rfl⟩
  · refine (c2_sinking_offset (-10) 3
      (.mk .plate "p2" "plate" none [.mk .other "w2" "well" (some ⟨0, 0, 3⟩) []])
      rfl ?_ ?_).1
    · intro w hw hcat l hl
      have hg : (RNode.mk .plate "p2" "plate" none
          [.mk .other "w2" "well" (some ⟨0, 0, 3⟩) []]).getAllChildren =
          [.mk .other "w2" "well" (some ⟨0, 0, 3⟩) []] := rfl
      rw [hg] at hw
      have hww := List.mem_singleton.mp hw
      subst hww
      injection hl with h2
      rw [← h2]
    · exact ⟨.mk .other "w2" "well" (some ⟨0, 0, 3⟩) [], by
        exact List.mem_singleton_self _, rfl, rfl⟩

/-- Componentwise addition of coordinate literals. -/
theorem coordinate_add_mk (a b c d e f : ℚ) :
    (⟨a, b, c⟩ : Coordinate) + ⟨d, e, f⟩ = ⟨a + d, b + e, c + f⟩ := rfl

/-- C2 counterexample: a plate whose wells all sit at the exact shared
clearance `751/250 = 3.004` with pedestal `-10` is sunk by `3` (the
rounded clearance), not by `min(10, 3.004) = 3.004` as the claim's
formula over the exact clearance demands. -/
theorem c2_rounded_clearance_counterexample :
    plateHolderDefaultChildLocation (-10)
        (.mk .plate "p3" "plate" none [.mk .other "w3" "well" (some ⟨0, 0, 751/250⟩) []]) =
      some ⟨0, 0, -3⟩ ∧
    plateHolderDefaultChildLocation (-10)
        (.mk .plate "p3" "plate" none [.mk .other "w3" "well" (some ⟨0, 0, 751/250⟩) []]) ≠
      some (baseDefaultChildLocation
          (.mk .plate "p3" "plate" none [.mk .other "w3" "well" (some ⟨0, 0, 751/250⟩) []]) +
        ⟨0, 0, -(min |(-10 : ℚ)| (751/250))⟩) := by
  have hr : round2 (751/250) = 3 := by
    unfold round2
    rw [show ((751 : ℚ)/250) * 100 = 1502/5 by norm_num, round_eq]
    rw [show (⌊(1502/5 : ℚ) + 1/2⌋ : ℤ) = 300 by
      apply Int.floor_eq_iff.mpr
      constructor <;> norm_num]
    norm_num
  have happ := (c2_sinking_offset (-10) (751/250)
      (.mk .plate "p3" "plate" none [.mk .other "w3" "well" (some ⟨0, 0, 751/250⟩) []])
      rfl ?hall ?hex).1
  case hall =>
    intro w hw hcat l hl
    have hg : (RNode.mk .plate "p3" "plate" none
        [.mk .other "w3" "well" (some ⟨0, 0, 751/250⟩) []]).getAllChildren =
        [.mk .other "w3" "well" (some ⟨0, 0, 751/250⟩) []] := rfl
    rw [hg] at hw
    have hww := List.mem_singleton.mp hw
    subst hww
    injection hl with h2
    rw [← h2]
  case hex =>
    exact ⟨.mk .other "w3" "well" (some ⟨0, 0, 751/250⟩) [], List.mem_singleton_self _, rfl, rfl⟩
  constructor
  · rw [happ, hr]
    rw [show baseDefaultChildLocation
        (.mk .plate "p3" "plate" none [.mk .other "w3" "well" (some ⟨0, 0, 751/250⟩) []]) =
        (⟨0, 0, 0⟩ : Coordinate) from rfl, coordinate_add_mk]
    simp only [Option.some.injEq, Coordinate.mk.injEq]
    norm_num
  · rw [happ, hr]
    rw [show baseDefaultChildLocation
        (.mk .plate "p3" "plate" none [.mk .other "w3" "well" (some ⟨0, 0, 751/250⟩) []]) =
        (⟨0, 0, 0⟩ : Coordinate) from rfl, coordinate_add_mk, coordinate_add_mk]
    simp only [ne_eq, Option.some.injEq, Coordinate.mk.injEq]
    norm_num

/-- C9 witness: a plate with wells at distinct z-locations 0 and 1 makes
the sinking-depth computation fail. -/
theorem c9_well_clearance_integrity_witness :
    1 < (wellDzValues (.mk .plate "p4" "plate" none
        [.mk .other "w1" "well" (some ⟨0, 0, 0⟩) [],
         .mk .other "w2" "well" (some ⟨0, 0, 1⟩) []])).length ∧
    getSinkingDepth (-5) (.mk .plate "p4" "plate" none
        [.mk .other "w1" "well" (some ⟨0, 0, 0⟩) [],
         .mk .other "w2" "well" (some ⟨0, 0, 1⟩) []]) = none := by
  have h0 : round2 0 = 0 := by exact_mod_cast round2_int 0
  have h1 : round2 1 = 1 := by exact_mod_cast round2_int 1
  have hW : wellDzValues (.mk .plate "p4" "plate" none
      [.mk .other "w1" "well" (some ⟨0, 0, 0⟩) [],
       .mk .other "w2" "well" (some ⟨0, 0, 1⟩) []]) = [0, 1] := by
    have hstep : wellDzValues (.mk .plate "p4" "plate" none
        [.mk .other "w1" "well" (some ⟨0, 0, 0⟩) [],
         .mk .other "w2" "well" (some ⟨0, 0, 1⟩) []]) =
        ([round2 0, round2 1] : List ℚ).dedup := rfl
    rw [hstep, h0, h1]
    decide
  have hmany : 1 < (wellDzValues (.mk .plate "p4" "plate" none
      [.mk .other "w1" "well" (some ⟨0, 0, 0⟩) [],
       .mk .other "w2" "well" (some ⟨0, 0, 1⟩) []])).length := by
    rw [hW]
    simp
  exact ⟨hmany, (c9_well_clearance_integrity (-5)
    (.mk .plate "p4" "plate" none
      [.mk .other "w1" "well" (some ⟨0, 0, 0⟩) [],
       .mk .other "w2" "well" (some ⟨0, 0, 1⟩) []]) rfl hmany).1⟩
